import Mathlib

/-!
Verification development for the term annotation and caching engine of the
smooth-read repository.  The definitions below are shallow embeddings of the
TypeScript sources:

* `TermCache` operations from `src/utils/cache.ts` (the persistent cache store);
* `GeminiService.explainTerm` and `GeminiService.detectTerms` from
  `src/services/geminiService.ts` (the explanation request coordinator);
* the highlighter `useMemo` body from `src/components/Reader.tsx`;
* the selection handlers from the manual-mode `Reader` and the `EbookReader`.

JavaScript strings are modelled as Lean `String`/`List Char`; indices and
lengths count characters, which agrees with JavaScript UTF-16 indexing on
Basic-Multilingual-Plane text (all concrete inputs used below are ASCII).
JavaScript objects used as string-keyed maps are modelled as association
lists with at most one binding per key; numeric timestamps are `Nat`
milliseconds; 32-bit signed integer arithmetic is modelled on `Int` with an
explicit reduction modulo 2 to the 32.
-/

/-- Lookup in an association list, modelling a JavaScript object property
read `m[key]` (returns the first binding; a JS object has at most one). -/
def lookupA {α : Type} : List (String × α) → String → Option α
  | [], _ => none
  | (k, v) :: rest, key => if k = key then some v else lookupA rest key

/-- Insertion into an association list, modelling the JavaScript property
write `m[key] = v`: an existing binding is replaced in place, a new key is
appended at the end (JS property-order semantics). -/
def insertA {α : Type} : List (String × α) → String → α → List (String × α)
  | [], key, v => [(key, v)]
  | (k, w) :: rest, key, v =>
      if k = key then (key, v) :: rest else (k, w) :: insertA rest key v

/-- Removal from an association list, modelling the JavaScript statement
`delete m[key]`.  Every binding with the key is removed; since a JS object
holds at most one binding per key this coincides with deleting the single
property. -/
def eraseA {α : Type} (m : List (String × α)) (key : String) : List (String × α) :=
  m.filter (fun kv => kv.fst != key)

theorem lookupA_insertA_self {α : Type} (m : List (String × α)) (key : String) (v : α) :
    lookupA (insertA m key v) key = some v := by
  induction m with
  | nil => simp [insertA, lookupA]
  | cons kv rest ih =>
      obtain ⟨k, w⟩ := kv
      by_cases h : k = key
      · simp [insertA, lookupA, h]
      · simp [insertA, lookupA, h, ih]

theorem lookupA_eraseA_self {α : Type} (m : List (String × α)) (key : String) :
    lookupA (eraseA m key) key = none := by
  induction m with
  | nil => simp [eraseA, lookupA]
  | cons kv rest ih =>
      obtain ⟨k, w⟩ := kv
      by_cases h : k = key
      · simpa [eraseA, lookupA, h] using ih
      · simpa [eraseA, lookupA, h] using ih

/-- Explanation record stored in the cache; embeds the `CachedTerm` interface
of `src/utils/cache.ts` (`examples` is optional in TS and modelled as a plain
list, absent meaning `[]`; `context` likewise). -/
structure CachedTerm where
  term : String
  definition : String
  category : String
  examples : List String
  timestamp : Nat
  context : String
deriving Repr, DecidableEq

/-- In-memory cache envelope; embeds the `CacheData` interface of
`src/utils/cache.ts`. -/
structure CacheData where
  explanations : List (String × CachedTerm)
  detectedTerms : List (String × List String)
deriving Repr, DecidableEq

/-- The empty cache, as produced by `loadCache` when nothing valid is stored. -/
def emptyCache : CacheData := ⟨[], []⟩

/-- Thirty days in milliseconds; embeds `TermCache.MAX_CACHE_AGE`
(`30 * 24 * 60 * 60 * 1000`). -/
def MAX_CACHE_AGE : Nat := 30 * 24 * 60 * 60 * 1000

/-- Per-character lowercasing, embedding the JavaScript call
`s.toLowerCase()` (ASCII case mapping; all keys the claims exercise are
ASCII). -/
def jsToLowerCase (s : String) : String := String.mk (s.data.map Char.toLower)

/-- Whitespace stripping at both ends, embedding the JavaScript call
`s.trim()`. -/
def jsTrim (s : String) : String :=
  String.mk (((s.data.dropWhile Char.isWhitespace).reverse.dropWhile
    Char.isWhitespace).reverse)

/-- Cache-key normalization applied by the store, embedding the expression
`term.toLowerCase().trim()` used in `cacheExplanation` and `getExplanation`. -/
def normKey (term : String) : String := jsTrim (jsToLowerCase term)

/-- Character-count prefix of a string, embedding the JavaScript call
`s.substring(0, n)` (for the nonnegative in-range arguments the source uses). -/
def jsSubstring (s : String) (n : Nat) : String := String.mk (s.data.take n)

/-- Embeds `TermCache.getExplanation` from `src/utils/cache.ts`: look the
normalized term up; a record younger than `MAX_CACHE_AGE` is returned, an
older one is deleted (returning the possibly mutated cache as second
component).  `now` stands for `Date.now()`; the JS age `now - timestamp`
can be negative only for future timestamps, where truncated `Nat`
subtraction gives 0 and the same branch is taken. -/
def TermCache.getExplanation (c : CacheData) (term : String) (now : Nat) :
    Option CachedTerm × CacheData :=
  match lookupA c.explanations (normKey term) with
  | some cached =>
      if now - cached.timestamp < MAX_CACHE_AGE then (some cached, c)
      else (none, { c with explanations := eraseA c.explanations (normKey term) })
  | none => (none, c)

/-- Embeds `TermCache.cacheExplanation` from `src/utils/cache.ts`: store under
the normalized key, overwriting the timestamp with `Date.now()` (`now`). -/
def TermCache.cacheExplanation (c : CacheData) (term : String)
    (explanation : CachedTerm) (now : Nat) : CacheData :=
  { c with explanations :=
      insertA c.explanations (normKey term) { explanation with timestamp := now } }

/-- Embeds `TermCache.cacheDetectedTerms` from `src/utils/cache.ts`. -/
def TermCache.cacheDetectedTerms (c : CacheData) (contentHash : String)
    (terms : List String) : CacheData :=
  { c with detectedTerms := insertA c.detectedTerms contentHash terms }

/-- Embeds `TermCache.getDetectedTerms` from `src/utils/cache.ts`; an entry
(even an empty list, which is truthy in JS) is a hit. -/
def TermCache.getDetectedTerms (c : CacheData) (contentHash : String) :
    Option (List String) :=
  lookupA c.detectedTerms contentHash

/-- Reduction of an integer to the signed 32-bit range, embedding the
JavaScript ToInt32 conversion performed by `hash & hash` and `<<`. -/
def toInt32 (n : Int) : Int := (n + 2 ^ 31) % 2 ^ 32 - 2 ^ 31

/-- UTF-16 code units of one character, embedding `content.charCodeAt(i)`
(which iterates UTF-16 units, splitting astral characters into a surrogate
pair). -/
def utf16Units (c : Char) : List Nat :=
  let v := c.toNat
  if v < 0x10000 then [v]
  else [0xD800 + (v - 0x10000) / 0x400, 0xDC00 + (v - 0x10000) % 0x400]

/-- Base-36 digit characters 0-9 then a-z, embedding `Number.toString(36)`. -/
def digit36 (n : Nat) : Char :=
  if n < 10 then Char.ofNat (48 + n) else Char.ofNat (87 + n)

/-- Fuelled base-36 digit expansion (most significant digit first). -/
def toBase36Aux : Nat → Nat → List Char
  | _, 0 => []
  | n, fuel + 1 => if n = 0 then [] else toBase36Aux (n / 36) fuel ++ [digit36 (n % 36)]

/-- Base-36 rendering of a natural number, embedding `n.toString(36)` for
nonnegative `n`. -/
def natToBase36 (n : Nat) : String :=
  if n = 0 then "0" else String.mk (toBase36Aux n (n + 1))

/-- Embeds `TermCache.generateContentHash` from `src/utils/cache.ts`: the
rolling hash `hash = ((hash << 5) - hash) + charCode` reduced to a 32-bit
signed integer each step, then `Math.abs(hash).toString(36)`. -/
def TermCache.generateContentHash (content : String) : String :=
  let codes := content.data.foldr (fun c acc => utf16Units c ++ acc) []
  let hash := codes.foldl (fun h cu => toInt32 (toInt32 (h * 32) - h + (cu : Int))) 0
  natToBase36 hash.natAbs

/-- Result shape returned to callers of `explainTerm`; embeds the
`TermExplanation` interface of `src/services/geminiService.ts`. -/
structure TermExplanation where
  term : String
  definition : String
  category : String
  examples : List String
deriving Repr, DecidableEq

/-- Fields of the JSON object obtained from `JSON.parse(cleanedText)` in
`explainTerm`, as consumed by the source expressions `parsed.term || term`,
`parsed.definition || ...`, `parsed.category || 'Other'`,
`parsed.examples || []`.  A field is `none` when it is absent or falsy
(so `o.term.getD term` embeds `parsed.term || term`); present non-string
values are outside the model, which covers every input the claims touch. -/
structure ParsedObj where
  term : Option String
  definition : Option String
  category : Option String
  examples : Option (List String)
deriving Repr, DecidableEq

/-- Outcome of the provider interaction performed by `explainTerm`:
`failure` embeds a rejected `fetch` or a non-ok response status (the code
throws and lands in the outer catch); `response responseText parsed` embeds
a 2xx response whose extracted text is `responseText` (the source default
is the empty string when the candidate parts are missing) and for which
`JSON.parse` of the code-fence-stripped text yields `parsed` (`none` when
the parse throws). -/
inductive ProviderOutcome where
  | failure
  | response (responseText : String) (parsed : Option ParsedObj)
deriving Repr, DecidableEq

/-- Value of one `explainTerm` run: the returned explanation, the cache
state afterwards, and whether the provider was contacted at all. -/
structure ExplainRun where
  result : TermExplanation
  cache : CacheData
  providerCalled : Bool
deriving Repr, DecidableEq

/-- Embeds `GeminiService.explainTerm` from `src/services/geminiService.ts`.
A fresh cached explanation is returned without contacting the provider.  On
a miss the provider outcome decides: a parsed object is normalized with the
source defaults, written to the cache with a 100-character context snippet,
and returned; a response that fails JSON parse yields the fallback record
(definition is the raw response text, or the fixed placeholder when that
text is empty), which is likewise written to the cache; a failed provider
call yields the fixed error record and writes nothing. -/
def GeminiService.explainTerm (term context : String) (c : CacheData) (now : Nat)
    (provider : ProviderOutcome) : ExplainRun :=
  match TermCache.getExplanation c term now with
  | (some cachedExplanation, c₁) =>
      ⟨⟨cachedExplanation.term, cachedExplanation.definition,
        cachedExplanation.category, cachedExplanation.examples⟩, c₁, false⟩
  | (none, c₁) =>
      match provider with
      | ProviderOutcome.failure =>
          ⟨⟨term, "Unable to get definition at this time.", "Other", []⟩, c₁, true⟩
      | ProviderOutcome.response responseText parsed =>
          match parsed with
          | some p =>
              let result : TermExplanation :=
                ⟨p.term.getD term, p.definition.getD "Definition not available",
                 p.category.getD "Other", p.examples.getD []⟩
              let c₂ := TermCache.cacheExplanation c₁ term
                ⟨result.term, result.definition, result.category, result.examples,
                 now, jsSubstring context 100⟩ now
              ⟨result, c₂, true⟩
          | none =>
              let fallback : TermExplanation :=
                ⟨term,
                 if responseText = "" then "Definition not available" else responseText,
                 "Other", []⟩
              let c₂ := TermCache.cacheExplanation c₁ term
                ⟨fallback.term, fallback.definition, fallback.category,
                 fallback.examples, now, jsSubstring context 100⟩ now
              ⟨fallback, c₂, true⟩

/-- Result of `JSON.parse(cleanedText)` in `detectTerms` when the parse
succeeds: either an array (whose elements the code passes through as the
term list) or some non-array JSON value. -/
inductive DetectParse where
  | arr (terms : List String)
  | nonArray
deriving Repr, DecidableEq

/-- Outcome of the provider interaction performed by `detectTerms`,
mirroring `ProviderOutcome`. -/
inductive DetectOutcome where
  | failure
  | response (responseText : String) (parsed : Option DetectParse)
deriving Repr, DecidableEq

/-- Value of one `detectTerms` run. -/
structure DetectRun where
  terms : List String
  cache : CacheData
  providerCalled : Bool
deriving Repr, DecidableEq

/-- Embeds `GeminiService.detectTerms` from `src/services/geminiService.ts`.
A cached list for the content hash is returned unconditionally.  On a miss:
a provider failure and a response whose JSON parse throws both return the
empty list without caching; a successfully parsed value is mapped through
`Array.isArray(terms) ? terms : []` and that result is written to the cache
under the content hash and returned. -/
def GeminiService.detectTerms (text : String) (c : CacheData)
    (provider : DetectOutcome) : DetectRun :=
  let contentHash := TermCache.generateContentHash text
  match TermCache.getDetectedTerms c contentHash with
  | some cachedTerms => ⟨cachedTerms, c, false⟩
  | none =>
      match provider with
      | DetectOutcome.failure => ⟨[], c, true⟩
      | DetectOutcome.response _ parsed =>
          match parsed with
          | none => ⟨[], c, true⟩
          | some j =>
              let result := match j with
                | DetectParse.arr ts => ts
                | DetectParse.nonArray => []
              ⟨result, TermCache.cacheDetectedTerms c contentHash result, true⟩

/-- The closed category set named by the request prompt of `explainTerm`
(`"Finance|Technology|Legal|Medical|Business|Other"`). -/
def allowedCategories : List String :=
  ["Finance", "Technology", "Legal", "Medical", "Business", "Other"]

/-- ASCII word character, embedding the regex character class behind the
word-boundary assertion of the highlighter regex (JavaScript word characters
are `[A-Za-z0-9_]`). -/
def isWordChar (c : Char) : Bool := c.isAlphanum || c = '_'

/-- Whether the character at index `i` of `s` exists and is a word
character (positions outside the string count as non-word context). -/
def wordAt (s : List Char) (i : Nat) : Bool :=
  match s.get? i with
  | some c => isWordChar c
  | none => false

/-- Word boundary between positions `i - 1` and `i` of `s`, embedding the
regex assertion `\b`: exactly one of the two adjacent positions holds a word
character. -/
def boundaryAt (s : List Char) (i : Nat) : Bool :=
  (decide (i ≠ 0) && wordAt s (i - 1)) != wordAt s i

/-- Lowercased character list, embedding the case-insensitive `i` regex flag
for ASCII text. -/
def lowerList (l : List Char) : List Char := l.map Char.toLower

/-- Whether the literal term `t` (the source escapes regex metacharacters,
making the term literal) matches subject `s` at index `i` for the
highlighter regex: the characters agree case-insensitively and both ends sit
on a word boundary. -/
def matchesAt (s t : List Char) (i : Nat) : Bool :=
  decide (i + t.length ≤ s.length) &&
  lowerList ((s.drop i).take t.length) == lowerList t &&
  boundaryAt s i &&
  boundaryAt s (i + t.length)

/-- Match start indices found by the repeated `regex.exec(content)` loop of
the highlighter with the `g` flag: leftmost matches, the scan resuming at
the end of each match.  `fuel` bounds the recursion; the scan position
advances by at least one each step (the source would loop forever on a
zero-length match of an empty term, for which this model instead advances by
one; all terms the claims exercise are nonempty). -/
def scanFrom (s t : List Char) : Nat → Nat → List Nat
  | _, 0 => []
  | i, fuel + 1 =>
      if s.length < i then []
      else if matchesAt s t i then i :: scanFrom s t (i + max t.length 1) fuel
      else scanFrom s t (i + 1) fuel

/-- All matches of term `t` in subject `s`, with sufficient fuel. -/
def scanTerm (s t : List Char) : List Nat := scanFrom s t 0 (s.length + 2)

/-- Clamping of a JavaScript `slice` index argument to `[0, len]`: a
negative index counts from the end. -/
def jsIdx (len : Nat) (i : Int) : Nat :=
  if i < 0 then ((len : Int) + i).toNat else min i.toNat len

/-- Embeds `s.slice(a, b)` on a character list. -/
def jsSlice2 (s : List Char) (a b : Int) : List Char :=
  let st := jsIdx s.length a
  let en := jsIdx s.length b
  (s.drop st).take (en - st)

/-- Embeds `s.slice(a)` on a character list. -/
def jsSlice1 (s : List Char) (a : Int) : List Char := s.drop (jsIdx s.length a)

/-- Span recorded by the highlighter; embeds the `HighlightedTerm` values
pushed by `Reader.tsx` (the constant placeholder `definition` object the
source also stores carries no information and is omitted). -/
structure HighlightedTerm where
  term : String
  startIndex : Int
  endIndex : Int
deriving Repr, DecidableEq

/-- Mutable state of the highlighter loop in `Reader.tsx`: the span list in
push order, the working buffer `processedContent`, and the running length
`offset`. -/
structure HLState where
  highlightedTerms : List HighlightedTerm
  processedContent : List Char
  offset : Int
deriving Repr, DecidableEq

/-- Placeholder token for the span with insertion index `k`; embeds the
template literal producing `__TERM_` followed by the decimal index and
`__`. -/
def placeholder (k : Nat) : List Char := ("__TERM_" ++ toString k ++ "__").data

/-- One iteration of the inner `while` loop of the highlighter for a match
of `term` at original-content index `matchIndex`: record the span at
`matchIndex + offset`, splice the placeholder into the working buffer, and
update the running offset. -/
def applyMatch (term : String) (st : HLState) (matchIndex : Nat) : HLState :=
  let startIndex : Int := (matchIndex : Int) + st.offset
  let endIndex : Int := startIndex + (term.length : Int)
  let spans := st.highlightedTerms ++ [⟨term, startIndex, endIndex⟩]
  let ph := placeholder (spans.length - 1)
  let processed :=
    jsSlice2 st.processedContent 0 startIndex ++ ph ++ jsSlice1 st.processedContent endIndex
  ⟨spans, processed, st.offset + ((ph.length : Int) - (term.length : Int))⟩

/-- The per-term body of the `sortedTerms.forEach` loop: the regex scans the
original `content` (not the working buffer), and each match is applied in
order. -/
def processTerm (content : List Char) (st : HLState) (term : String) : HLState :=
  (scanTerm content term.data).foldl (applyMatch term) st

/-- Stable insertion of a term into a list sorted by descending length,
placing it after all strictly longer terms. -/
def insertByLen (t : String) : List String → List String
  | [] => [t]
  | u :: us => if t.length < u.length then u :: insertByLen t us else t :: u :: us

/-- Stable sort by descending string length, embedding
`terms.sort((a, b) => b.length - a.length)` (JavaScript `sort` is stable). -/
def sortTermsDesc (terms : List String) : List String :=
  terms.foldr insertByLen []

/-- Embeds the `highlightedContent` `useMemo` body of `Reader.tsx` in auto
mode (in manual mode the source returns the content unchanged with no
spans): sort the detected terms by descending length, then run the
match-and-replace loop over each, threading the span list, working buffer
and offset.  Returns the rewritten buffer and the recorded spans. -/
def highlightedContent (content : String) (detectedTerms : List String) :
    List Char × List HighlightedTerm :=
  let sortedTerms := sortTermsDesc detectedTerms
  let final := sortedTerms.foldl (processTerm content.data) ⟨[], content.data, 0⟩
  (final.processedContent, final.highlightedTerms)

/-- Overlap of two half-open span ranges. -/
def spansOverlap (a b : HighlightedTerm) : Bool :=
  max a.startIndex b.startIndex < min a.endIndex b.endIndex

/-- Word limit on manual selections; embeds `MAX_SELECTION_WORDS` from the
manual-mode `Reader` and the `EbookReader`. -/
def MAX_SELECTION_WORDS : Nat := 5

/-- Splitting at whitespace characters, embedding `text.split(/\s+/)`.
Splitting happens at every single whitespace character, so a run of
whitespace yields several empty fragments where the JS regex split yields
one; the callers filter out empty fragments, after which the two
agree. -/
def jsSplitWsAux : List Char → List Char → List String
  | [], acc => [String.mk acc.reverse]
  | c :: rest, acc =>
      if Char.isWhitespace c then String.mk acc.reverse :: jsSplitWsAux rest []
      else jsSplitWsAux rest (c :: acc)

/-- Whitespace-delimited word count, embedding
`text.split(/\s+/).filter(word => word.length > 0).length`. -/
def countWords (text : String) : Nat :=
  ((jsSplitWsAux text.data []).filter (fun word => word.length > 0)).length

/-- The rejection notice shown for an over-long selection; embeds the
template literal interpolating `MAX_SELECTION_WORDS` and the word count. -/
def selectionTooLongMessage (wordCount : Nat) : String :=
  "Please select fewer words (max " ++ toString MAX_SELECTION_WORDS ++
    " words). You selected " ++ toString wordCount ++ " words."

/-- Observable outcome of one run of the manual-selection handler. -/
structure SelectionRun where
  tooltipMessage : Option String
  autoHideMs : Option Nat
  requestsExplanation : Bool
  selectedTerm : Option String
deriving Repr, DecidableEq

/-- Embeds `handleTextSelection` of the manual-mode `Reader` (the
`EbookReader` selection handlers follow the same word-limit logic): an empty
trimmed selection does nothing; a selection of more than
`MAX_SELECTION_WORDS` whitespace-delimited words shows the rejection notice
with a 3000 ms auto-hide timer and returns before any provider call; an
accepted selection proceeds to `handleManualTermExplanation` (and thus to
`explainTerm`) exactly when a service is configured. -/
def handleTextSelection (rawSelection : String) (hasGeminiService : Bool) :
    SelectionRun :=
  let selectedText := jsTrim rawSelection
  if selectedText = "" then ⟨none, none, false, none⟩
  else
    let wordCount := countWords selectedText
    if MAX_SELECTION_WORDS < wordCount then
      ⟨some (selectionTooLongMessage wordCount), some 3000, false, none⟩
    else
      ⟨none, none, hasGeminiService && decide (0 < selectedText.length),
       some selectedText⟩

/-- Rectangle in page coordinates; embeds the DOMRect fields used by the
`EbookReader` selection handler. -/
structure Rect where
  left : ℚ
  top : ℚ
  width : ℚ
  height : ℚ
deriving Repr, DecidableEq

/-- Tooltip anchor; embeds the `TooltipPosition` values of the source. -/
structure TooltipPosition where
  x : ℚ
  y : ℚ
  visible : Bool
deriving Repr, DecidableEq

/-- Embeds the zero-size fallback of the `EbookReader` selection handler:
when the aggregate bounding rectangle has zero width and height, the first
client sub-rectangle (if any) is used instead. -/
def chooseSelectionRect (bounding : Rect) (clientRects : List Rect) : Rect :=
  if bounding.width = 0 ∧ bounding.height = 0 then clientRects.headD bounding
  else bounding

/-- Embeds the anchor computation of the `EbookReader` selected handler:
`x = iframeRect.left + rect.left + rect.width / 2` and
`y = iframeRect.top + rect.top - 10`, translating the locally computed
rectangle by the host-relative frame offset. -/
def ebookTooltipPos (rect iframeRect : Rect) : TooltipPosition :=
  ⟨iframeRect.left + rect.left + rect.width / 2,
   iframeRect.top + rect.top - 10, true⟩

theorem pair_eta_of_fst_none {A B : Type} (p : Option A × B) (h : p.fst = none) :
    p = (none, p.snd) := by
  rw [← h]

theorem getExplanation_hit_elim (c : CacheData) (term : String) (now : Nat)
    (e : CachedTerm) (c₂ : CacheData)
    (h : TermCache.getExplanation c term now = (some e, c₂)) :
    lookupA c.explanations (normKey term) = some e ∧
    now - e.timestamp < MAX_CACHE_AGE ∧ c₂ = c := by
  rcases hl : lookupA c.explanations (normKey term) with _ | e₀
  · simp [TermCache.getExplanation, hl] at h
  · by_cases hf : now - e₀.timestamp < MAX_CACHE_AGE
    · simp [TermCache.getExplanation, hl, hf] at h
      obtain ⟨he, hc⟩ := h
      subst he
      subst hc
      exact ⟨rfl, hf, rfl⟩
    · simp [TermCache.getExplanation, hl, hf] at h

theorem getExplanation_miss_lookup (c : CacheData) (term : String) (now : Nat)
    (h : (TermCache.getExplanation c term now).fst = none) :
    lookupA (TermCache.getExplanation c term now).snd.explanations (normKey term) =
      none := by
  rcases hl : lookupA c.explanations (normKey term) with _ | e₀
  · simp [TermCache.getExplanation, hl]
  · by_cases hf : now - e₀.timestamp < MAX_CACHE_AGE
    · exfalso
      simp [TermCache.getExplanation, hl, hf] at h
    · simp [TermCache.getExplanation, hl, hf, lookupA_eraseA_self]

theorem getExplanation_after_cache (c : CacheData) (term : String)
    (e : CachedTerm) (now : Nat) :
    TermCache.getExplanation (TermCache.cacheExplanation c term e now) term now =
      (some { e with timestamp := now }, TermCache.cacheExplanation c term e now) := by
  unfold TermCache.getExplanation TermCache.cacheExplanation
  simp [lookupA_insertA_self]
  norm_num [MAX_CACHE_AGE]

/-- C6: `getExplanation` normalizes the term (its value depends only on the
normalized key), returns absent when no record exists, deletes a record
whose age has reached the 30-day maximum as a side effect of the read and
reports it absent, and returns a record within the 30-day window with the
cache unchanged. -/
theorem getExplanation_expiry_spec (c : CacheData) (term : String) (now : Nat) :
    (∀ t, normKey t = normKey term →
        TermCache.getExplanation c t now = TermCache.getExplanation c term now) ∧
    (lookupA c.explanations (normKey term) = none →
        TermCache.getExplanation c term now = (none, c)) ∧
    (∀ e, lookupA c.explanations (normKey term) = some e →
        (MAX_CACHE_AGE ≤ now - e.timestamp →
            (TermCache.getExplanation c term now).fst = none ∧
            lookupA (TermCache.getExplanation c term now).snd.explanations
              (normKey term) = none) ∧
        (now - e.timestamp < MAX_CACHE_AGE →
            TermCache.getExplanation c term now = (some e, c))) := by
  refine ⟨?_, ?_, ?_⟩
  · intro t ht
    unfold TermCache.getExplanation
    rw [ht]
  · intro hnone
    simp [TermCache.getExplanation, hnone]
  · intro e he
    constructor
    · intro hold
      have hnl : ¬ now - e.timestamp < MAX_CACHE_AGE := not_lt.mpr hold
      simp [TermCache.getExplanation, he, hnl, lookupA_eraseA_self]
    · intro hfresh
      simp [TermCache.getExplanation, he, hfresh]

def c6record : CachedTerm := ⟨"api", "a programming interface", "Technology", [], 0, ""⟩

def c6cache : CacheData := ⟨[("api", c6record)], []⟩

/-- Witness for C6 at concrete inputs: a 30-day-old record is reported
absent and purged, a fresh one is returned unchanged, and an unknown term is
absent. -/
theorem getExplanation_expiry_spec_witness :
    ((TermCache.getExplanation c6cache "API" MAX_CACHE_AGE).fst = none ∧
     lookupA (TermCache.getExplanation c6cache "API" MAX_CACHE_AGE).snd.explanations
       (normKey "API") = none) ∧
    TermCache.getExplanation c6cache "API" 5 = (some c6record, c6cache) ∧
    TermCache.getExplanation c6cache "unseen" 5 = (none, c6cache) :=
  ⟨((getExplanation_expiry_spec c6cache "API" MAX_CACHE_AGE).2.2 c6record
      (by decide)).1 (by decide),
   ((getExplanation_expiry_spec c6cache "API" 5).2.2 c6record (by decide)).2
     (by decide),
   (getExplanation_expiry_spec c6cache "unseen" 5).2.1 (by decide)⟩

/-- C1 counterexample: with an empty cache and a provider that fails both
times, two successive `explainTerm` calls for the same term and context each
contact the provider, so the two calls issue two provider calls, not at most
one (the failed first call writes no cache entry to short-circuit the
second). -/
theorem explain_twice_two_provider_calls_on_failure :
    (GeminiService.explainTerm "foo" "" emptyCache 0
        ProviderOutcome.failure).providerCalled = true ∧
    (GeminiService.explainTerm "foo" ""
        (GeminiService.explainTerm "foo" "" emptyCache 0
          ProviderOutcome.failure).cache 0
        ProviderOutcome.failure).providerCalled = true := by decide

/-- C1 (amended): calling `explainTerm` twice in succession with no cache
clear in between issues at most one provider call and returns identical
content from both calls, provided the first call's provider interaction did
not fail (a failed first call writes nothing and is retried by the second
call, as the error-handling design requires): the second call
short-circuits on the cache entry before any provider activity. -/
theorem explain_twice_idempotent_of_success (term context : String)
    (c : CacheData) (now : Nat) (p₁ p₂ : ProviderOutcome)
    (h : p₁ ≠ ProviderOutcome.failure) :
    (GeminiService.explainTerm term context
        (GeminiService.explainTerm term context c now p₁).cache now
        p₂).providerCalled = false ∧
    (GeminiService.explainTerm term context
        (GeminiService.explainTerm term context c now p₁).cache now p₂).result =
      (GeminiService.explainTerm term context c now p₁).result ∧
    ((if (GeminiService.explainTerm term context c now p₁).providerCalled
        then 1 else 0) +
     (if (GeminiService.explainTerm term context
          (GeminiService.explainTerm term context c now p₁).cache now
          p₂).providerCalled then 1 else 0) ≤ 1) := by
  rcases hp : TermCache.getExplanation c term now with ⟨r, csnd⟩
  cases r with
  | some cached =>
      obtain ⟨hl, hf, hc⟩ := getExplanation_hit_elim c term now cached csnd hp
      rw [hc] at hp
      have he₁ : GeminiService.explainTerm term context c now p₁ =
          ⟨⟨cached.term, cached.definition, cached.category, cached.examples⟩,
           c, false⟩ := by
        simp [GeminiService.explainTerm, hp]
      rw [he₁]
      simp [GeminiService.explainTerm, hp]
  | none =>
      cases p₁ with
      | failure => exact absurd rfl h
      | response responseText parsed =>
          cases parsed with
          | none =>
              have he₁ : GeminiService.explainTerm term context c now
                  (ProviderOutcome.response responseText none) =
                  ⟨⟨term, if responseText = "" then "Definition not available"
                      else responseText, "Other", []⟩,
                   TermCache.cacheExplanation csnd term
                     ⟨term, if responseText = "" then "Definition not available"
                        else responseText, "Other", [], now,
                      jsSubstring context 100⟩ now, true⟩ := by
                simp [GeminiService.explainTerm, hp]
              rw [he₁]
              simp [GeminiService.explainTerm, getExplanation_after_cache]
          | some pobj =>
              have he₁ : GeminiService.explainTerm term context c now
                  (ProviderOutcome.response responseText (some pobj)) =
                  ⟨⟨pobj.term.getD term,
                    pobj.definition.getD "Definition not available",
                    pobj.category.getD "Other", pobj.examples.getD []⟩,
                   TermCache.cacheExplanation csnd term
                     ⟨pobj.term.getD term,
                      pobj.definition.getD "Definition not available",
                      pobj.category.getD "Other", pobj.examples.getD [], now,
                      jsSubstring context 100⟩ now, true⟩ := by
                simp [GeminiService.explainTerm, hp]
              rw [he₁]
              simp [GeminiService.explainTerm, getExplanation_after_cache]

/-- Witness for C1 (amended) at concrete inputs: a successful first call
(unparseable provider text) makes the second call a silent cache hit with
identical content. -/
theorem explain_twice_idempotent_of_success_witness :
    (GeminiService.explainTerm "api" "ctx"
        (GeminiService.explainTerm "api" "ctx" emptyCache 5
          (ProviderOutcome.response "plain text" none)).cache 5
        ProviderOutcome.failure).providerCalled = false ∧
    (GeminiService.explainTerm "api" "ctx"
        (GeminiService.explainTerm "api" "ctx" emptyCache 5
          (ProviderOutcome.response "plain text" none)).cache 5
        ProviderOutcome.failure).result =
      (GeminiService.explainTerm "api" "ctx" emptyCache 5
        (ProviderOutcome.response "plain text" none)).result :=
  ⟨(explain_twice_idempotent_of_success "api" "ctx" emptyCache 5
      (ProviderOutcome.response "plain text" none) ProviderOutcome.failure
      (by decide)).1,
   (explain_twice_idempotent_of_success "api" "ctx" emptyCache 5
      (ProviderOutcome.response "plain text" none) ProviderOutcome.failure
      (by decide)).2.1⟩

/-- C4: on a cache miss, a provider response whose text fails structured
parse makes `explainTerm` return the fallback record — the raw response
text as definition, or the fixed placeholder when the provider returned
nothing, with category Other — and write it to the cache so a subsequent
`getExplanation` for the same term finds it; a failed provider call makes
`explainTerm` return the fixed error record with definition
`Unable to get definition at this time.` and category Other, writing
nothing to the cache. -/
theorem explain_fallback_and_failure_paths (term context : String)
    (c : CacheData) (now : Nat)
    (hmiss : (TermCache.getExplanation c term now).fst = none) :
    (∀ responseText,
        (GeminiService.explainTerm term context c now
            (ProviderOutcome.response responseText none)).result =
          ⟨term,
           if responseText = "" then "Definition not available" else responseText,
           "Other", []⟩ ∧
        (TermCache.getExplanation
            (GeminiService.explainTerm term context c now
              (ProviderOutcome.response responseText none)).cache term now).fst =
          some ⟨term,
            if responseText = "" then "Definition not available" else responseText,
            "Other", [], now, jsSubstring context 100⟩) ∧
    ((GeminiService.explainTerm term context c now
        ProviderOutcome.failure).result =
      ⟨term, "Unable to get definition at this time.", "Other", []⟩ ∧
     (GeminiService.explainTerm term context c now
        ProviderOutcome.failure).cache =
       (TermCache.getExplanation c term now).snd ∧
     (TermCache.getExplanation
        (GeminiService.explainTerm term context c now
          ProviderOutcome.failure).cache term now).fst = none) := by
  have hafter := getExplanation_miss_lookup c term now hmiss
  rcases hp : TermCache.getExplanation c term now with ⟨r, c₂⟩
  rw [hp] at hmiss hafter
  simp only at hmiss hafter
  subst hmiss
  refine ⟨?_, ?_⟩
  · intro responseText
    constructor
    · simp [GeminiService.explainTerm, hp]
    · simp [GeminiService.explainTerm, hp, getExplanation_after_cache]
  · refine ⟨?_, ?_, ?_⟩
    · simp [GeminiService.explainTerm, hp]
    · simp [GeminiService.explainTerm, hp]
    · have hx : (GeminiService.explainTerm term context c now
          ProviderOutcome.failure).cache = c₂ := by
        simp [GeminiService.explainTerm, hp]
      rw [hx]
      simp [TermCache.getExplanation, hafter]

/-- Witness for C4 at concrete inputs: on an empty cache, unparseable
provider text is returned as fallback definition and cached; a provider
failure returns the fixed error record and caches nothing. -/
theorem explain_fallback_and_failure_paths_witness :
    ((GeminiService.explainTerm "ebit" "context string" emptyCache 7
        (ProviderOutcome.response "not json" none)).result =
      ⟨"ebit", "not json", "Other", []⟩ ∧
     (TermCache.getExplanation
        (GeminiService.explainTerm "ebit" "context string" emptyCache 7
          (ProviderOutcome.response "not json" none)).cache "ebit" 7).fst =
      some ⟨"ebit", "not json", "Other", [], 7,
        jsSubstring "context string" 100⟩) ∧
    ((GeminiService.explainTerm "ebit" "context string" emptyCache 7
        ProviderOutcome.failure).result =
      ⟨"ebit", "Unable to get definition at this time.", "Other", []⟩ ∧
     (TermCache.getExplanation
        (GeminiService.explainTerm "ebit" "context string" emptyCache 7
          ProviderOutcome.failure).cache "ebit" 7).fst = none) := by
  have h := explain_fallback_and_failure_paths "ebit" "context string"
    emptyCache 7 (by decide)
  have h1 := h.1 "not json"
  refine ⟨⟨?_, ?_⟩, h.2.1, h.2.2.2⟩
  · simpa using h1.1
  · simpa using h1.2

/-- C10: every explanation record `explainTerm` writes to the cache — on
the successfully-parsed path and on the parse-failure fallback path alike —
carries as context snippet exactly the first 100 characters of the supplied
context string (hence at most 100 characters). -/
theorem explain_context_snippet_spec (term context : String) (c : CacheData)
    (now : Nat) (hmiss : (TermCache.getExplanation c term now).fst = none)
    (responseText : String) (parsed : Option ParsedObj) :
    ∃ rec, lookupA (GeminiService.explainTerm term context c now
          (ProviderOutcome.response responseText parsed)).cache.explanations
        (normKey term) = some rec ∧
      rec.context = jsSubstring context 100 ∧
      rec.context.length ≤ 100 := by
  rcases hp : TermCache.getExplanation c term now with ⟨r, c₂⟩
  rw [hp] at hmiss
  simp only at hmiss
  subst hmiss
  have hlen : (jsSubstring context 100).length ≤ 100 := by
    show (context.data.take 100).length ≤ 100
    simp [List.length_take]
  cases parsed with
  | none =>
      refine ⟨⟨term,
        if responseText = "" then "Definition not available" else responseText,
        "Other", [], now, jsSubstring context 100⟩, ?_, rfl, hlen⟩
      simp [GeminiService.explainTerm, hp, TermCache.cacheExplanation,
        lookupA_insertA_self]
  | some pobj =>
      refine ⟨⟨pobj.term.getD term,
        pobj.definition.getD "Definition not available",
        pobj.category.getD "Other", pobj.examples.getD [], now,
        jsSubstring context 100⟩, ?_, rfl, hlen⟩
      simp [GeminiService.explainTerm, hp, TermCache.cacheExplanation,
        lookupA_insertA_self]

/-- Witness for C10 at concrete inputs: the record cached for unparseable
provider text on an empty cache stores the 100-character context prefix. -/
theorem explain_context_snippet_spec_witness :
    ∃ rec, lookupA (GeminiService.explainTerm "api" "short context"
          emptyCache 3 (ProviderOutcome.response "oops" none)).cache.explanations
        (normKey "api") = some rec ∧
      rec.context = jsSubstring "short context" 100 ∧
      rec.context.length ≤ 100 :=
  explain_context_snippet_spec "api" "short context" emptyCache 3 (by decide)
    "oops" none

/-- Provider outcome whose response parses to a JSON object carrying a
category outside the closed set (the response text shown is the JSON the
parse corresponds to). -/
def bananaOutcome : ProviderOutcome :=
  ProviderOutcome.response
    "\x7b\"term\": \"x\", \"definition\": \"d\", \"category\": \"Banana\", \"examples\": []\x7d"
    (some ⟨some "x", some "d", some "Banana", some []⟩)

/-- C9 counterexample: the code does not validate the parsed category, so a
provider response carrying category `Banana` makes `explainTerm` return —
and cache — a record whose category is outside the closed set
{Finance, Technology, Legal, Medical, Business, Other}. -/
theorem explain_category_unvalidated_cex :
    (GeminiService.explainTerm "x" "" emptyCache 0 bananaOutcome).result.category =
      "Banana" ∧
    "Banana" ∉ allowedCategories ∧
    lookupA (GeminiService.explainTerm "x" "" emptyCache 0
        bananaOutcome).cache.explanations (normKey "x") =
      some ⟨"x", "d", "Banana", [], 0, ""⟩ := by decide

/-- C9 (amended): the request prompt constrains the category to the closed
set and the code substitutes `Other` for an absent category, but it passes
a present category string through unvalidated; hence the returned and
cached category lies in the closed set exactly on the provider-failure
path, the parse-failure path, and any parsed response whose own category
field is absent or in the closed set. -/
theorem explain_category_spec (term context : String) (c : CacheData)
    (now : Nat) (hmiss : (TermCache.getExplanation c term now).fst = none) :
    (GeminiService.explainTerm term context c now
        ProviderOutcome.failure).result.category ∈ allowedCategories ∧
    (∀ responseText,
        (GeminiService.explainTerm term context c now
          (ProviderOutcome.response responseText none)).result.category ∈
          allowedCategories) ∧
    (∀ responseText pobj, (∀ s, pobj.category = some s → s ∈ allowedCategories) →
        (GeminiService.explainTerm term context c now
            (ProviderOutcome.response responseText (some pobj))).result.category ∈
          allowedCategories ∧
        (∃ rec, lookupA (GeminiService.explainTerm term context c now
              (ProviderOutcome.response responseText
                (some pobj))).cache.explanations (normKey term) = some rec ∧
          rec.category ∈ allowedCategories)) := by
  rcases hp : TermCache.getExplanation c term now with ⟨r, c₂⟩
  rw [hp] at hmiss
  simp only at hmiss
  subst hmiss
  have hcat : ∀ pobj : ParsedObj, (∀ s, pobj.category = some s →
      s ∈ allowedCategories) → pobj.category.getD "Other" ∈ allowedCategories := by
    intro pobj hvalid
    cases hc : pobj.category with
    | none => simp [allowedCategories]
    | some s => simpa using hvalid s hc
  refine ⟨?_, ?_, ?_⟩
  · simp [GeminiService.explainTerm, hp, allowedCategories]
  · intro responseText
    simp [GeminiService.explainTerm, hp, allowedCategories]
  · intro responseText pobj hvalid
    constructor
    · simpa [GeminiService.explainTerm, hp] using hcat pobj hvalid
    · refine ⟨⟨pobj.term.getD term,
        pobj.definition.getD "Definition not available",
        pobj.category.getD "Other", pobj.examples.getD [], now,
        jsSubstring context 100⟩, ?_, hcat pobj hvalid⟩
      simp [GeminiService.explainTerm, hp, TermCache.cacheExplanation,
        lookupA_insertA_self]

/-- Witness for C9 (amended) at concrete inputs: a parsed response with an
absent category yields `Other`, within the closed set, both as returned
result and in the cache. -/
theorem explain_category_spec_witness :
    (GeminiService.explainTerm "roi" "" emptyCache 0
        (ProviderOutcome.response "\x7b\"term\": \"roi\"\x7d"
          (some ⟨some "roi", none, none, none⟩))).result.category ∈
      allowedCategories ∧
    (∃ rec, lookupA (GeminiService.explainTerm "roi" "" emptyCache 0
          (ProviderOutcome.response "\x7b\"term\": \"roi\"\x7d"
            (some ⟨some "roi", none, none, none⟩))).cache.explanations
        (normKey "roi") = some rec ∧
      rec.category ∈ allowedCategories) :=
  (explain_category_spec "roi" "" emptyCache 0 (by decide)).2.2
    "\x7b\"term\": \"roi\"\x7d" ⟨some "roi", none, none, none⟩
    (by intro s hs; simp at hs)

/-- C5 counterexample: a provider response that parses to a non-array JSON
value (here the number 5) makes `detectTerms` return the empty sequence but
also write the empty list to the cache under the text fingerprint, so a
subsequent call short-circuits on the poisoned entry without contacting the
provider — the claim says nothing is written in this case. -/
theorem detect_nonarray_caches_empty_cex :
    (GeminiService.detectTerms "abc" emptyCache
        (DetectOutcome.response "5" (some DetectParse.nonArray))).terms = [] ∧
    lookupA (GeminiService.detectTerms "abc" emptyCache
        (DetectOutcome.response "5" (some DetectParse.nonArray))).cache.detectedTerms
      (TermCache.generateContentHash "abc") = some [] ∧
    (GeminiService.detectTerms "abc"
        (GeminiService.detectTerms "abc" emptyCache
          (DetectOutcome.response "5" (some DetectParse.nonArray))).cache
        DetectOutcome.failure).providerCalled = false := by decide

/-- C5 (amended): on a cache miss, a provider failure or a response whose
JSON parse throws makes `detectTerms` return the empty sequence and write
nothing; a response that parses writes the value of
`Array.isArray(terms) ? terms : []` through to the cache keyed by the text
fingerprint and returns it — the parsed array itself (including a
legitimately empty one), or the empty list when the parsed value is not an
array. -/
theorem detect_parse_cache_spec (text : String) (c : CacheData)
    (hmiss : lookupA c.detectedTerms (TermCache.generateContentHash text) = none) :
    ((GeminiService.detectTerms text c DetectOutcome.failure).terms = [] ∧
     (GeminiService.detectTerms text c DetectOutcome.failure).cache = c) ∧
    (∀ responseText,
        (GeminiService.detectTerms text c
            (DetectOutcome.response responseText none)).terms = [] ∧
        (GeminiService.detectTerms text c
            (DetectOutcome.response responseText none)).cache = c) ∧
    (∀ responseText ts,
        (GeminiService.detectTerms text c
            (DetectOutcome.response responseText
              (some (DetectParse.arr ts)))).terms = ts ∧
        lookupA (GeminiService.detectTerms text c
            (DetectOutcome.response responseText
              (some (DetectParse.arr ts)))).cache.detectedTerms
          (TermCache.generateContentHash text) = some ts) ∧
    (∀ responseText,
        (GeminiService.detectTerms text c
            (DetectOutcome.response responseText
              (some DetectParse.nonArray))).terms = [] ∧
        lookupA (GeminiService.detectTerms text c
            (DetectOutcome.response responseText
              (some DetectParse.nonArray))).cache.detectedTerms
          (TermCache.generateContentHash text) = some []) := by
  refine ⟨⟨?_, ?_⟩, fun responseText => ⟨?_, ?_⟩,
    fun responseText ts => ⟨?_, ?_⟩, fun responseText => ⟨?_, ?_⟩⟩ <;>
    simp [GeminiService.detectTerms, TermCache.getDetectedTerms, hmiss,
      TermCache.cacheDetectedTerms, lookupA_insertA_self]

/-- Witness for C5 (amended) at concrete inputs: on an empty cache a parse
failure caches nothing and a parsed array is cached under the
fingerprint. -/
theorem detect_parse_cache_spec_witness :
    ((GeminiService.detectTerms "doc" emptyCache
        (DetectOutcome.response "garbage" none)).terms = [] ∧
     (GeminiService.detectTerms "doc" emptyCache
        (DetectOutcome.response "garbage" none)).cache = emptyCache) ∧
    ((GeminiService.detectTerms "doc" emptyCache
        (DetectOutcome.response "[\"EBITDA\"]"
          (some (DetectParse.arr ["EBITDA"])))).terms = ["EBITDA"] ∧
     lookupA (GeminiService.detectTerms "doc" emptyCache
        (DetectOutcome.response "[\"EBITDA\"]"
          (some (DetectParse.arr ["EBITDA"])))).cache.detectedTerms
       (TermCache.generateContentHash "doc") = some ["EBITDA"]) :=
  ⟨(detect_parse_cache_spec "doc" emptyCache (by decide)).2.1 "garbage",
   (detect_parse_cache_spec "doc" emptyCache (by decide)).2.2.1
     "[\"EBITDA\"]" ["EBITDA"]⟩

/-- C7: a selection of more than `MAX_SELECTION_WORDS` whitespace-delimited
words is rejected before any provider call, with the rejection notice
interpolating the 5-word limit and an auto-dismiss timer of 3000
milliseconds; a selection of exactly 5 words (with a service configured)
is accepted and proceeds to an explanation request.  The closing conjunct
evaluates the notice text, showing it mentions the 5-word limit. -/
theorem selection_word_limit_spec (rawSelection : String)
    (hasGeminiService : Bool) :
    (MAX_SELECTION_WORDS < countWords (jsTrim rawSelection) →
        (handleTextSelection rawSelection hasGeminiService).requestsExplanation =
          false ∧
        (handleTextSelection rawSelection hasGeminiService).tooltipMessage =
          some (selectionTooLongMessage (countWords (jsTrim rawSelection))) ∧
        (handleTextSelection rawSelection hasGeminiService).autoHideMs =
          some 3000) ∧
    (countWords (jsTrim rawSelection) = MAX_SELECTION_WORDS →
        hasGeminiService = true →
        (handleTextSelection rawSelection hasGeminiService).requestsExplanation =
          true) ∧
    selectionTooLongMessage 6 =
      "Please select fewer words (max 5 words). You selected 6 words." := by
  have hempty : countWords "" = 0 := by decide
  have hne : ∀ s : String, s ≠ "" → 0 < s.length := by
    intro s hs
    rcases s with ⟨l⟩
    cases l with
    | nil => exact absurd rfl hs
    | cons a as => simp [String.length]
  refine ⟨?_, ?_, by decide⟩
  · intro hgt
    have ht : jsTrim rawSelection ≠ "" := by
      intro h0
      rw [h0, hempty] at hgt
      exact absurd hgt (by decide)
    simp [handleTextSelection, ht, hgt]
  · intro heq hsvc
    have ht : jsTrim rawSelection ≠ "" := by
      intro h0
      rw [h0, hempty] at heq
      exact absurd heq.symm (by decide)
    have hnlt : ¬ MAX_SELECTION_WORDS < countWords (jsTrim rawSelection) := by
      rw [heq]
      exact lt_irrefl MAX_SELECTION_WORDS
    simp [handleTextSelection, ht, hnlt, hsvc, hne _ ht]

/-- Witness for C7 at concrete inputs: a 6-word selection is rejected with
the notice and 3000 ms timer, a 5-word selection proceeds to a request. -/
theorem selection_word_limit_spec_witness :
    ((handleTextSelection "a b c d e f" true).requestsExplanation = false ∧
     (handleTextSelection "a b c d e f" true).tooltipMessage =
       some (selectionTooLongMessage (countWords (jsTrim "a b c d e f"))) ∧
     (handleTextSelection "a b c d e f" true).autoHideMs = some 3000) ∧
    (handleTextSelection "a b c d e" true).requestsExplanation = true :=
  ⟨(selection_word_limit_spec "a b c d e f" true).1 (by decide),
   (selection_word_limit_spec "a b c d e" true).2.1 (by decide) rfl⟩

/-- C8: for a selection inside the nested rendering surface, the resolved
anchor adds the host-relative frame offset to the locally computed
rectangle, with x at the horizontal midpoint of the rectangle and y a fixed
10-unit offset above its top: local rectangle left 10 and top 20 with frame
offset left 100 and top 50 anchors at x = 110 + width / 2 and
y = 70 - 10. -/
theorem ebook_anchor_translation (w h fw fh : ℚ) :
    ebookTooltipPos ⟨10, 20, w, h⟩ ⟨100, 50, fw, fh⟩ =
      ⟨110 + w / 2, 70 - 10, true⟩ := by
  simp only [ebookTooltipPos, TooltipPosition.mk.injEq]
  refine ⟨by norm_num, by norm_num, trivial⟩

/-- C2 evaluation at the failing input: on document
`Our REST API is stable.` with candidates `API` and `REST API`, the
highlighter records the spans (4, 12) for `REST API` and (11, 14) for
`API`; the two spans overlap, and the second span's half-open range in the
original document reads `I i`, which does not case-insensitively equal
`API` — both guarantees of the claim fail.  The scan runs over the
original content, so the placeholder substitution never prevents a shorter
term from re-matching inside an already consumed region. -/
theorem highlight_overlapping_spans_eval :
    (highlightedContent "Our REST API is stable." ["API", "REST API"]).snd =
      [⟨"REST API", 4, 12⟩, ⟨"API", 11, 14⟩] ∧
    spansOverlap ⟨"REST API", 4, 12⟩ ⟨"API", 11, 14⟩ = true ∧
    lowerList (("Our REST API is stable.".data.drop 11).take 3) ≠
      lowerList "API".data := by decide

/-- C3 evaluation at the claim's own example: the highlighter produces two
spans, not exactly one — the longest-first order makes `REST API` consume
the region first, but the later scan of `API` against the original document
matches inside it anyway. -/
theorem highlight_rest_api_two_spans_eval :
    ((highlightedContent "Our REST API is stable." ["API", "REST API"]).snd).length =
      2 ∧
    (highlightedContent "Our REST API is stable." ["API", "REST API"]).snd =
      [⟨"REST API", 4, 12⟩, ⟨"API", 11, 14⟩] := by decide
